import Mathlib

/-!
Verification development for the SARIMA forecasting engine
(`src/tools/forecasting_engine.py` of the SCM-ChatBot repository).

The deterministic control flow and arithmetic of the engine are embedded
shallowly:

* weekly series are `List (ℤ × ℚ)` pairs of (week-start day, value);
* machine floats are idealised as rationals `ℚ`;
* the opaque numerical library calls (`adfuller`, `SARIMAX(...).fit`,
  `get_forecast`, `conf_int`, `fittedvalues`, `numpy` square root) are
  modelled as oracle functions collected in a `StatsEnv`; a fit that
  raises an exception is an oracle returning `none`.

Everything else — grid construction, AIC minimisation, tail-trim, holdout
splitting, MAPE, clipping, trend classification, error messages and the
multi-category loop — is translated line by line from the Python source.
-/

namespace SCMForecast

/-- Insert a rational into a sorted list (ascending). -/
def insSorted (a : ℚ) : List ℚ → List ℚ
  | [] => [a]
  | b :: t => if a ≤ b then a :: b :: t else b :: insSorted a t

/-- Ascending insertion sort, used to compute the rolling median exactly as
`pandas` does (sort the window, then take the middle). -/
def sortQ : List ℚ → List ℚ
  | [] => []
  | a :: t => insSorted a (sortQ t)

/-- Median of a list of rationals: middle element of the sorted list when the
length is odd, mean of the two middle elements when it is even
(`pandas.Series.median` semantics on a rolling window). -/
def medianOf (l : List ℚ) : ℚ :=
  if (sortQ l).length % 2 = 1 then (sortQ l).getD ((sortQ l).length / 2) 0
  else ((sortQ l).getD ((sortQ l).length / 2 - 1) 0 +
    (sortQ l).getD ((sortQ l).length / 2) 0) / 2

/-- Last element of a value list (`series.iloc[-1]`), defaulting to 0. -/
def lastD (l : List ℚ) : ℚ := l.getLastD 0

/-- `series.iloc[:-1].rolling(4, min_periods=2).median().iloc[-1]`:
the median of the (up to 4) values preceding the final one, requiring at
least two of them (`none` models the `NaN` produced otherwise). -/
def refMedLast (s : List ℚ) : Option ℚ :=
  if s.dropLast.length < 2 then none
  else some (medianOf (s.dropLast.drop (s.dropLast.length - 4)))

/-- One loop-body test of `_tail_trim`: the final week is dropped exactly when
the series still has at least 8 points, the rolling median exists and is
positive, and the final value is below 70% of that median. -/
def wouldDrop (s : List ℚ) : Bool :=
  decide (8 ≤ s.length) &&
    match refMedLast s with
    | none => false
    | some m => decide (0 < m ∧ lastD s < m * (7 / 10))

/-- Number of trailing points `_tail_trim` removes, given the remaining
drop budget (`max_drop - dropped` in the Python loop). -/
def tailTrimDrops : Nat → List ℚ → Nat
  | 0, _ => 0
  | n + 1, s => if wouldDrop s then tailTrimDrops n s.dropLast + 1 else 0

/-- `_tail_trim` on the value list: iteratively drop anomalous trailing weeks,
up to `min(4, len(series) // 8)` of them. -/
def tailTrim (s : List ℚ) : List ℚ :=
  s.take (s.length - tailTrimDrops (min 4 (s.length / 8)) s)

/-- `_tail_trim` on a (date, value) series: the drop decision depends on the
values only, so the same number of trailing pairs is removed. -/
def tailTrimPairs (s : List (ℤ × ℚ)) : List (ℤ × ℚ) :=
  s.take (s.length - tailTrimDrops (min 4 (s.length / 8)) (s.map Prod.snd))

/-- The final value is strictly below 70% of the rolling median of the (up to
four) preceding weeks.  `false` when that median is undefined. -/
def isBelowThreshold (s : List ℚ) : Bool :=
  match refMedLast s with
  | none => false
  | some m => decide (lastD s < m * (7 / 10))

-- ── SARIMA order selection ──────────────────────────────────────────────────

/-- Non-seasonal order (p, d, q). -/
abbrev Ord3 := Nat × Nat × Nat

/-- Seasonal order (P, D, Q, s). -/
abbrev Ord4 := Nat × Nat × Nat × Nat

/-- Result of `_auto_sarima_params` / `_auto_sarima_params_fast`:
`aic = none` models the initial `float('inf')` kept when every fit fails. -/
structure SarimaParams where
  order : Ord3
  seasonal : Ord4
  aic : Option ℚ
deriving DecidableEq

/-- Differencing decision from the augmented Dickey-Fuller test: `d = 1` when
the p-value exceeds 0.05 and, conservatively, when the test raises
(`adf = none`). -/
def chooseD (adf : Option ℚ) : Nat :=
  match adf with
  | none => 1
  | some p => if 1 / 20 < (p : ℚ) then 1 else 0

/-- The full grid of `_auto_sarima_params`: p, q ∈ {0,1,2}, P, Q ∈ {0,1},
D ∈ {0,1}, skipping any combination with d + D > 1. -/
def fullGrid (d : Nat) : List (Ord3 × Ord4) :=
  [0, 1, 2].flatMap fun p => [0, 1, 2].flatMap fun q =>
    [0, 1].flatMap fun P => [0, 1].flatMap fun Q =>
      (([0, 1].filter fun D => decide (d + D ≤ 1)).map fun D =>
        ((p, d, q), (P, D, Q, 4)))

/-- The reduced grid of `_auto_sarima_params_fast`: p, q ∈ {0,1},
P, Q ∈ {0,1}, D fixed at 0. -/
def fastGrid (d : Nat) : List (Ord3 × Ord4) :=
  [0, 1].flatMap fun p => [0, 1].flatMap fun q =>
    [0, 1].flatMap fun P => [0, 1].map fun Q => ((p, d, q), (P, 0, Q, 4))

/-- One grid-search step: a failed fit (`none`) is skipped; a successful fit
replaces the incumbent iff its AIC is strictly smaller (the incumbent
`aic = none` is `float('inf')`, beaten by anything). -/
def selectStep (fit : Ord3 → Ord4 → Option ℚ) (best : SarimaParams)
    (c : Ord3 × Ord4) : SarimaParams :=
  match fit c.1 c.2 with
  | none => best
  | some a =>
    match best.aic with
    | none => ⟨c.1, c.2, some a⟩
    | some b => if a < b then ⟨c.1, c.2, some a⟩ else best

/-- `_auto_sarima_params`: AIC grid search seeded with the fall-back default
order (1, d, 1), seasonal (1, max(0, 1−d), 1, 4). -/
def autoSarimaParams (fit : Ord3 → Ord4 → Option ℚ) (adf : Option ℚ) :
    SarimaParams :=
  let d := chooseD adf
  (fullGrid d).foldl (selectStep fit) ⟨(1, d, 1), (1, 1 - d, 1, 4), none⟩

/-- `_auto_sarima_params_fast`: reduced-grid search seeded with the fall-back
default order (1, d, 1), seasonal (0, 0, 1, 4). -/
def autoSarimaParamsFast (fit : Ord3 → Ord4 → Option ℚ) (adf : Option ℚ) :
    SarimaParams :=
  let d := chooseD adf
  (fastGrid d).foldl (selectStep fit) ⟨(1, d, 1), (0, 0, 1, 4), none⟩

/-- Total differencing order d + D of a selected parameter set. -/
def dTotal (p : SarimaParams) : Nat := p.order.2.1 + p.seasonal.2.1

-- ── Statistical-library oracle ──────────────────────────────────────────────

/-- The observable outputs of a successfully fitted SARIMAX model:
out-of-sample predictions with their 95% confidence bounds (indexed by step)
and in-sample fitted values (indexed by position in the series). -/
structure FitResult where
  predictedMean : Nat → ℚ
  confLower : Nat → ℚ
  confUpper : Nat → ℚ
  fittedValues : Nat → ℚ

/-- Oracle for the numerical library calls.  `adfP` is the Dickey-Fuller
p-value on a series (`none` = the test raised); `gridFit`/`gridFitFast`
give the AIC of a grid-search fit on a training series (`none` = the fit
raised, maxiter 400 resp. 200); `fit`/`fitFast` are the top-level model
fits; `sqrtQ` is the square root used by `Series.std()`. -/
structure StatsEnv where
  adfP : List ℚ → Option ℚ
  gridFit : List ℚ → Ord3 → Ord4 → Option ℚ
  gridFitFast : List ℚ → Ord3 → Ord4 → Option ℚ
  fit : List ℚ → Ord3 → Ord4 → Option FitResult
  fitFast : List ℚ → Ord3 → Ord4 → Option FitResult
  sqrtQ : ℚ → ℚ

-- ── Shared numeric helpers ──────────────────────────────────────────────────

/-- Arithmetic mean of a value list (`Series.mean()`). -/
def qMean (l : List ℚ) : ℚ := l.sum / l.length

/-- Maximum of a value list (`Series.max()`), 0 on the empty list. -/
def qMax (l : List ℚ) : ℚ := (l.max?).getD 0

/-- Sample variance with ddof = 1, the square of `Series.std()`. -/
def sampleVar (l : List ℚ) : ℚ :=
  (l.map fun x => (x - qMean l) ^ 2).sum / ((l.length : ℚ) - 1)

/-- MAPE over positionally paired actuals and predictions, restricted to
strictly positive actuals (`nonzero = test > 0`); 0 when no actual is
positive.  Mirrors `np.mean(np.abs((a - p) / a)) * 100`. -/
def mapeCalc (actual pred : List ℚ) : ℚ :=
  let pairs := (actual.zip pred).filter fun ap => decide (0 < ap.1)
  if pairs.length = 0 then 0
  else ((pairs.map fun ap => |(ap.1 - ap.2) / ap.1|).sum / pairs.length) * 100

/-- `np.clip` as used by `DataFrame.clip(lower=0, upper=clip_upper)`. -/
def clipQ (clipUpper : Option ℚ) (x : ℚ) : ℚ :=
  match clipUpper with
  | none => max 0 x
  | some u => min u (max 0 x)

/-- `weeks_ahead = max(1, round(periods / 7))` (horizon days → weeks). -/
def weeksAheadOf (periods : ℤ) : ℤ := max 1 (round ((periods : ℚ) / 7))

/-- `holdout_weeks = min(8, max(4, len(series) // 6))`. -/
def holdoutOfLen (n : Nat) : Nat := min 8 (max 4 (n / 6))

/-- Training prefix `series.iloc[:-holdout_weeks]` of the value list. -/
def trainVals (vals : List ℚ) : List ℚ :=
  vals.take (vals.length - holdoutOfLen vals.length)

/-- Holdout suffix `series.iloc[-holdout_weeks:]` of the value list. -/
def testVals (vals : List ℚ) : List ℚ :=
  vals.drop (vals.length - holdoutOfLen vals.length)

/-- Holdout actuals of a (date, value) series. -/
def holdoutVals (s : List (ℤ × ℚ)) : List ℚ := testVals (s.map Prod.snd)

/-- Rows of the forward `forecast_df`: point estimate and bounds per step,
all clipped by `clip(lower=0, upper=clip_upper)`. -/
structure FRow where
  forecast : ℚ
  lower : ℚ
  upper : ℚ
deriving DecidableEq

/-- Step 3 of the pipeline: the clipped `forecast_df` rows built from the
final model's `get_forecast(steps)` and `conf_int(alpha=0.05)`. -/
def finalRows (ff : FitResult) (steps : Nat) (clipUpper : Option ℚ) :
    List FRow :=
  (List.range steps).map fun i =>
    ⟨clipQ clipUpper (ff.predictedMean i),
     clipQ clipUpper (ff.confLower i),
     clipQ clipUpper (ff.confUpper i)⟩

/-- Trend classification against `hist_mean ± 0.2 × hist_std`. -/
def trendOf (histMean histStd lastFc : ℚ) : String :=
  if histMean + histStd * (1 / 5) < lastFc then "increasing"
  else if lastFc < histMean - histStd * (1 / 5) then "decreasing"
  else "stable"

-- ── The core pipeline `_run_sarima_on_series` ───────────────────────────────

/-- The raw-numbers dictionary returned by a successful pipeline run
(charts omitted: they consume these numbers downstream). -/
structure SarimaResult where
  weeksAhead : ℤ
  histMean : ℚ
  histStd : ℚ
  histMax : ℚ
  forecastDf : List FRow
  mape : ℚ
  mapeLabel : String
  params : SarimaParams
  trend : String
deriving DecidableEq

/-- Outcome of `_run_sarima_on_series`: a `{'error': msg}` dictionary, an
uncaught exception propagating to the caller, or the result record. -/
inductive PipeOut where
  | errorResult (msg : String)
  | raised
  | ok (r : SarimaResult)
deriving DecidableEq

/-- The order selection performed at the start of the walk-forward step:
`_auto_sarima_params` on the training prefix. -/
def wfParamsOf (env : StatsEnv) (s : List (ℤ × ℚ)) : SarimaParams :=
  let train := trainVals (s.map Prod.snd)
  autoSarimaParams (env.gridFit train) (env.adfP train)

/-- The validation fit of the walk-forward step (`none` = it raised). -/
def wfFitOf (env : StatsEnv) (s : List (ℤ × ℚ)) : Option FitResult :=
  let p := wfParamsOf env s
  env.fit (trainVals (s.map Prod.snd)) p.order p.seasonal

/-- The accuracy number of a pipeline run: the walk-forward MAPE on the
holdout when the validation fit succeeded, otherwise the in-sample MAPE of
the final model's fitted values against the full series. -/
def pipeMapeVal (env : StatsEnv) (s : List (ℤ × ℚ)) (ff : FitResult) : ℚ :=
  let vals := s.map Prod.snd
  match wfFitOf env s with
  | some fv =>
    mapeCalc (testVals vals)
      ((List.range (holdoutOfLen vals.length)).map fun i =>
        max 0 (fv.predictedMean i))
  | none => mapeCalc vals ((List.range vals.length).map ff.fittedValues)

/-- The result record assembled from a successful final fit `ff`. -/
def assembleResult (env : StatsEnv) (s : List (ℤ × ℚ)) (periods : ℤ)
    (clipUpper : Option ℚ) (ff : FitResult) : SarimaResult :=
  let vals := s.map Prod.snd
  let rows := finalRows ff (weeksAheadOf periods).toNat clipUpper
  let hm := qMean vals
  let hs := env.sqrtQ (sampleVar vals)
  { weeksAhead := weeksAheadOf periods
    histMean := hm
    histStd := hs
    histMax := qMax vals
    forecastDf := rows
    mape := pipeMapeVal env s ff
    mapeLabel := "walk-forward"
    params := wfParamsOf env s
    trend := trendOf hm hs ((rows.map FRow.forecast).getLastD 0) }

/-- `_run_sarima_on_series`: the full SARIMA pipeline on a weekly series.
Insufficient history returns the error dictionary; a raising final fit
propagates; otherwise walk-forward (or fallback in-sample) MAPE, the
forward forecast, and the trend label are assembled exactly as in the
source. -/
def runSarima (env : StatsEnv) (series : List (ℤ × ℚ)) (periods : ℤ)
    (clipUpper : Option ℚ) : PipeOut :=
  if series.length < 16 then
    .errorResult ("Only " ++ toString series.length ++
      " weeks of data available (need ≥16). Load more history and retry.")
  else
    match env.fit (series.map Prod.snd) (wfParamsOf env series).order
        (wfParamsOf env series).seasonal with
    | none => .raised
    | some ff => .ok (assembleResult env series periods clipUpper ff)

/-- Projection helpers on pipeline outcomes. -/
def pipeIsOk : PipeOut → Bool
  | .ok _ => true
  | _ => false

def pipeMape : PipeOut → Option ℚ
  | .ok r => some r.mape
  | _ => none

def pipeMapeLabel : PipeOut → Option String
  | .ok r => some r.mapeLabel
  | _ => none

def pipeParams : PipeOut → Option SarimaParams
  | .ok r => some r.params
  | _ => none

-- ── Multi-category coordinator `forecast_top_categories` ────────────────────

/-- Per-category record stored in `category_results`. -/
structure CatResult where
  series : List (ℤ × ℚ)
  forecastDf : List FRow
  histMean : ℚ
  histStd : ℚ
  avgForecast : ℚ
  trend : String
  mape : Option ℚ
deriving DecidableEq

/-- Log message for a category skipped with too little history. -/
def skipMsg (c : String) (n : Nat) : String :=
  "Skipping " ++ c ++ ": only " ++ toString n ++ " weeks"

/-- Log message for a category whose pipeline raised (preparation or final
fit); the exception text of the source message is elided. -/
def failMsg (c : String) : String := "Forecast failed for category " ++ c

/-- Log message for a failed holdout evaluation inside a category. -/
def holdMsg (c : String) : String := "Holdout MAPE failed for " ++ c

/-- Reduced-grid order selection on the training prefix, as performed inside
the per-category loop. -/
def fastParamsOf (env : StatsEnv) (s : List (ℤ × ℚ)) : SarimaParams :=
  let train := trainVals (s.map Prod.snd)
  autoSarimaParamsFast (env.gridFitFast train) (env.adfP train)

/-- The per-category validation fit of the coordinator (`none` = raised). -/
def cwfFitOf (env : StatsEnv) (s : List (ℤ × ℚ)) : Option FitResult :=
  let p := fastParamsOf env s
  env.fitFast (trainVals (s.map Prod.snd)) p.order p.seasonal

/-- The per-category accuracy number: `mape` stays unset (`none`) when the
validation fit raised or when no holdout actual is positive — the
coordinator has no all-zero fallback to 0. -/
def catMapeVal (env : StatsEnv) (s : List (ℤ × ℚ)) : Option ℚ :=
  let vals := s.map Prod.snd
  match cwfFitOf env s with
  | none => none
  | some fv =>
    if ((testVals vals).filter fun a => decide (0 < a)).length ≠ 0 then
      some (mapeCalc (testVals vals)
        ((List.range (holdoutOfLen vals.length)).map fun i =>
          max 0 (fv.predictedMean i)))
    else none

/-- The warning emitted by a failed per-category holdout evaluation. -/
def catHoldLog (env : StatsEnv) (s : List (ℤ × ℚ)) (c : String) :
    List String :=
  match cwfFitOf env s with
  | none => [holdMsg c]
  | some _ => []

/-- The record stored in `category_results` for a fully successful
category. -/
def assembleCat (env : StatsEnv) (s : List (ℤ × ℚ)) (periods : ℤ)
    (ff : FitResult) : CatResult :=
  let vals := s.map Prod.snd
  let rows := finalRows ff (weeksAheadOf periods).toNat none
  let hm := qMean vals
  let hs := env.sqrtQ (sampleVar vals)
  { series := s
    forecastDf := rows
    histMean := hm
    histStd := hs
    avgForecast := qMean (rows.map FRow.forecast)
    trend := trendOf hm hs ((rows.map FRow.forecast).getLastD 0)
    mape := catMapeVal env s }

/-- One iteration of the `forecast_top_categories` loop for category `c`.
`prep = none` models `_prepare_category_series` raising `ValueError`
(caught by the surrounding `except`).  Returns the stored record (or
`none` when the category is skipped) together with the warning log lines
emitted, in order. -/
def catPipe (env : StatsEnv) (periods : ℤ) (c : String)
    (prep : Option (List (ℤ × ℚ))) : Option CatResult × List String :=
  match prep with
  | none => (none, [failMsg c])
  | some s =>
    if s.length < 16 then (none, [skipMsg c s.length])
    else
      match env.fitFast (s.map Prod.snd) (fastParamsOf env s).order
          (fastParamsOf env s).seasonal with
      | none => (none, catHoldLog env s c ++ [failMsg c])
      | some ff => (some (assembleCat env s periods ff), catHoldLog env s c)

/-- `forecast_top_categories` after the top-N selection: `cats` lists the
top categories in volume order, each with the outcome of
`_prepare_category_series` (`none` = it raised).  The loop collects the
successful records in order, logging skips and failures; an empty
collection yields the error dictionary.  The second component is the
warning log. -/
def topCatResults (env : StatsEnv)
    (cats : List (String × Option (List (ℤ × ℚ)))) (periods : ℤ) :
    List (String × CatResult) :=
  cats.filterMap fun cp =>
    (catPipe env periods cp.1 cp.2).1.map fun r => (cp.1, r)

/-- The warning log of the whole loop, in emission order. -/
def topCatLog (env : StatsEnv)
    (cats : List (String × Option (List (ℤ × ℚ)))) (periods : ℤ) :
    List String :=
  cats.flatMap fun cp => (catPipe env periods cp.1 cp.2).2

def runTopCats (env : StatsEnv) (cats : List (String × Option (List (ℤ × ℚ))))
    (periods : ℤ) :
    Except String (List (String × CatResult)) × List String :=
  if (topCatResults env cats periods).isEmpty then
    (.error "Could not generate forecasts for any category",
      topCatLog env cats periods)
  else (.ok (topCatResults env cats periods), topCatLog env cats periods)

/-- Whether a coordinator outcome is the non-error result. -/
def coordIsOk (o : Except String (List (String × CatResult))) : Bool :=
  match o with
  | .ok _ => true
  | .error _ => false

/-- The successful categories of a coordinator outcome, in order
(`list(category_results.keys())`). -/
def coordCats (o : Except String (List (String × CatResult))) : List String :=
  match o with
  | .ok rs => rs.map Prod.fst
  | .error _ => []

/-- The MAPE stored for category `c`, when the run succeeded and `c` is
among the successful categories. -/
def coordMapeOf (o : Except String (List (String × CatResult)))
    (c : String) : Option (Option ℚ) :=
  match o with
  | .ok rs => (rs.lookup c).map CatResult.mape
  | .error _ => none

-- ── Series builders ─────────────────────────────────────────────────────────

/-- Floor a day number to the Monday of its week
(`date - to_timedelta(date.dt.dayofweek)`), with days counted from a
Monday epoch so that `dayofweek = d % 7`. -/
def weekFloor (d : ℤ) : ℤ := d - d % 7

/-- Minimum of a list of week starts (`index.min()`). -/
def wMin (l : List ℤ) : ℤ := l.foldl min (l.headD 0)

/-- Maximum of a list of week starts (`index.max()`). -/
def wMax (l : List ℤ) : ℤ := l.foldl max (l.headD 0)

/-- `pd.date_range(start, ..., freq='7D')` with `n` points. -/
def fullRange (lo : ℤ) : Nat → List ℤ
  | 0 => []
  | n + 1 => lo :: fullRange (lo + 7) n

/-- Number of points of `pd.date_range(start=lo, end=hi, freq='7D')`
(for `lo ≤ hi`). -/
def rangeLen (lo hi : ℤ) : Nat := ((hi - lo) / 7).toNat + 1

/-- Count-metric series builder (`_prepare_demand_series` and the per-category
variant): group events by week start, reindex to the complete 7-day grid
filling gaps with 0, keep the trailing history window (`cutoff` stands for
`index.max() - DateOffset(months=history_months)`), then tail-trim. -/
def prepareCountSeries (events : List ℤ) (cutoff : ℤ) : List (ℤ × ℚ) :=
  let weeks := events.map weekFloor
  let lo := wMin weeks
  let s := (fullRange lo (rangeLen lo (wMax weeks))).map fun w =>
    (w, (weeks.count w : ℚ))
  tailTrimPairs (s.filter fun p => decide (cutoff ≤ p.1))

/-- Sum-metric series builder (`_prepare_revenue_series`): weekly sum of
payment values, gaps filled with 0, history cutoff, tail-trim. -/
def prepareSumSeries (events : List (ℤ × ℚ)) (cutoff : ℤ) : List (ℤ × ℚ) :=
  let weeks := events.map fun e => weekFloor e.1
  let lo := wMin weeks
  let s := (fullRange lo (rangeLen lo (wMax weeks))).map fun w =>
    (w, ((events.filter fun e => decide (weekFloor e.1 = w)).map Prod.snd).sum)
  tailTrimPairs (s.filter fun p => decide (cutoff ≤ p.1))

/-- Category builder (`_prepare_category_series`): the count builder applied
to the events of one category. -/
def prepareCategorySeries (events : List (ℤ × String)) (cat : String)
    (cutoff : ℤ) : List (ℤ × ℚ) :=
  prepareCountSeries ((events.filter fun e => decide (e.2 = cat)).map Prod.fst)
    cutoff

/-- Weeks kept by the delay-rate builder: week starts of delivered orders
with at least 5 deliveries in the week. -/
def keptWeeks (rows : List (ℤ × Bool)) : List ℤ :=
  let wks := rows.map fun r => weekFloor r.1
  wks.dedup.filter fun w => decide (5 ≤ wks.count w)

/-- Weekly delay rate (%) of a kept week: `late / total * 100`. -/
def delayRateAt (rows : List (ℤ × Bool)) (w : ℤ) : ℚ :=
  let inWeek := rows.filter fun r => decide (weekFloor r.1 = w)
  ((inWeek.filter fun r => r.2).length : ℚ) / inWeek.length * 100

/-- Nearest observed value at or before position `i`. -/
def prevSome (l : List (Option ℚ)) (i : Nat) : Option (Nat × ℚ) :=
  ((List.range (i + 1)).reverse).findSome? fun j =>
    (l.getD j none).map fun v => (j, v)

/-- Nearest observed value strictly after position `i`. -/
def nextSome (l : List (Option ℚ)) (i : Nat) : Option (Nat × ℚ) :=
  ((List.range l.length).drop (i + 1)).findSome? fun j =>
    (l.getD j none).map fun v => (j, v)

/-- `Series.interpolate(method='linear')` at position `i`: observed values
kept; interior gaps linear in position; a trailing gap holds the last
observed value.  (A leading gap cannot occur here: the first grid week of
every builder is observed.) -/
def interpVal (l : List (Option ℚ)) (i : Nat) : ℚ :=
  match l.getD i none with
  | some v => v
  | none =>
    match prevSome l i, nextSome l i with
    | some (j, a), some (k, b) => a + (b - a) * ((i : ℚ) - j) / ((k : ℚ) - j)
    | some (_, a), none => a
    | none, some (_, b) => b
    | none, none => 0

/-- Delay-rate series builder (`_prepare_delay_rate_series`): weekly late
ratio over weeks with ≥ 5 deliveries, reindexed to the 7-day grid,
linear-interpolated, clamped to [0, 100], history cutoff; no tail-trim. -/
def prepareDelaySeries (rows : List (ℤ × Bool)) (cutoff : ℤ) : List (ℤ × ℚ) :=
  let kept := keptWeeks rows
  let lo := wMin kept
  let idx := fullRange lo (rangeLen lo (wMax kept))
  let optVals := idx.map fun w =>
    if w ∈ kept then some (delayRateAt rows w) else none
  let vals := (List.range idx.length).map fun i =>
    min 100 (max 0 (interpVal optVals i))
  (idx.zip vals).filter fun p => decide (cutoff ≤ p.1)

/-- The `WeeklySeries` invariant: consecutive index dates differ by exactly
7 days (hence no gaps and no duplicate weeks). -/
def Spaced7 (s : List (ℤ × ℚ)) : Prop :=
  List.Chain' (fun a b => b.1 = a.1 + 7) s

-- ── Concrete instances for witnesses and counterexamples ────────────────────

/-- A benign fit result: unit predictions, confidence band [0, 2], unit
fitted values. -/
def frGood : FitResult :=
  { predictedMean := fun _ => 1
    confLower := fun _ => 0
    confUpper := fun _ => 2
    fittedValues := fun _ => 1 }

/-- A fit result whose in-sample fitted values are all 0. -/
def frZeroFit : FitResult :=
  { predictedMean := fun _ => 1
    confLower := fun _ => 0
    confUpper := fun _ => 2
    fittedValues := fun _ => 0 }

/-- A benign library oracle: the unit-root test gives p = 0.1, every grid fit
fails (so the default order is kept) and every model fit succeeds. -/
def envGood : StatsEnv :=
  { adfP := fun _ => some (1 / 10)
    gridFit := fun _ _ _ => none
    gridFitFast := fun _ _ _ => none
    fit := fun _ _ _ => some frGood
    fitFast := fun _ _ _ => some frGood
    sqrtQ := fun _ => 0 }

/-- An oracle on which the walk-forward validation fit (on the 12-week
training prefix of a 16-week series) raises while the final full-series fit
succeeds with all-zero fitted values. -/
def envWfFail : StatsEnv :=
  { adfP := fun _ => some (1 / 10)
    gridFit := fun _ _ _ => none
    gridFitFast := fun _ _ _ => none
    fit := fun s _ _ => if s.length = 12 then none else some frZeroFit
    fitFast := fun _ _ _ => some frZeroFit
    sqrtQ := fun _ => 0 }

/-- An oracle whose grid search selects different winners on the 12-week
training prefix and on the full 16-week series. -/
def envSplitGrid : StatsEnv :=
  { adfP := fun _ => some (1 / 10)
    gridFit := fun s o so =>
      if s.length = 12 then
        (if o = (0, 1, 0) ∧ so = (0, 0, 0, 4) then some 1 else none)
      else (if o = (2, 1, 2) ∧ so = (1, 0, 1, 4) then some 1 else none)
    gridFitFast := fun _ _ _ => none
    fit := fun _ _ _ => some frGood
    fitFast := fun _ _ _ => some frGood
    sqrtQ := fun _ => 0 }

/-- An oracle on which every model fit raises. -/
def envAllFail : StatsEnv :=
  { adfP := fun _ => some (1 / 10)
    gridFit := fun _ _ _ => none
    gridFitFast := fun _ _ _ => none
    fit := fun _ _ _ => none
    fitFast := fun _ _ _ => none
    sqrtQ := fun _ => 0 }

/-- A 16-week series of constant unit demand. -/
def s16good : List (ℤ × ℚ) := (List.range 16).map fun i => ((7 * i : ℤ), 1)

/-- A 16-week series whose 4-week holdout actuals are all zero. -/
def s16zeroTail : List (ℤ × ℚ) :=
  (List.range 12).map (fun i => ((7 * i : ℤ), 1)) ++
    (List.range 4).map fun i => ((84 + 7 * i : ℤ), 0)

/-- A 3-week series, below the 16-week minimum. -/
def s3short : List (ℤ × ℚ) := [(0, 5), (7, 6), (14, 7)]

-- ── Lemmas: order search (claim C4) ─────────────────────────────────────────

lemma chooseD_le_one (adf : Option ℚ) : chooseD adf ≤ 1 := by
  cases adf with
  | none => simp [chooseD]
  | some p => simp only [chooseD]; split <;> omega

lemma dTotal_foldl_selectStep (fit : Ord3 → Ord4 → Option ℚ)
    (l : List (Ord3 × Ord4)) (b : SarimaParams) (hb : dTotal b ≤ 1)
    (hl : ∀ c ∈ l, c.1.2.1 + c.2.2.1 ≤ 1) :
    dTotal (l.foldl (selectStep fit) b) ≤ 1 := by
  induction l generalizing b with
  | nil => simpa using hb
  | cons c t ih =>
    simp only [List.foldl_cons]
    refine ih _ ?_ fun d hd => hl d (List.mem_cons_of_mem _ hd)
    have hc := hl c (List.mem_cons_self _ _)
    unfold selectStep
    cases fit c.1 c.2 with
    | none => exact hb
    | some a =>
      cases b.aic with
      | none => exact hc
      | some v => dsimp only; split <;> [exact hc; exact hb]

lemma mem_fullGrid (d : Nat) (c : Ord3 × Ord4) (hc : c ∈ fullGrid d) :
    c.1.2.1 + c.2.2.1 ≤ 1 := by
  simp only [fullGrid, List.mem_flatMap, List.mem_map, List.mem_filter,
    decide_eq_true_eq] at hc
  obtain ⟨p, -, q, -, P, -, Q, -, D, ⟨-, hD⟩, rfl⟩ := hc
  simpa using hD

lemma mem_fastGrid (d : Nat) (hd : d ≤ 1) (c : Ord3 × Ord4)
    (hc : c ∈ fastGrid d) : c.1.2.1 + c.2.2.1 ≤ 1 := by
  simp only [fastGrid, List.mem_flatMap, List.mem_map] at hc
  obtain ⟨p, -, q, -, P, -, Q, -, rfl⟩ := hc
  simpa using hd

lemma foldl_selectStep_none (l : List (Ord3 × Ord4)) (b : SarimaParams) :
    l.foldl (selectStep fun _ _ => none) b = b := by
  induction l generalizing b with
  | nil => rfl
  | cons c t ih => simpa [selectStep] using ih b

/-- C4: every `ModelOrder` produced by the order search satisfies d + D ≤ 1 —
for the full grid search, for the fast reduced-grid search, and for the
fixed defaults kept when every fit fails (which the last two conjuncts
exhibit explicitly). -/
theorem C4_d_plus_D_le_one (fit fitF : Ord3 → Ord4 → Option ℚ)
    (adf adfF : Option ℚ) :
    dTotal (autoSarimaParams fit adf) ≤ 1 ∧
    dTotal (autoSarimaParamsFast fitF adfF) ≤ 1 ∧
    autoSarimaParams (fun _ _ => none) adf =
      ⟨(1, chooseD adf, 1), (1, 1 - chooseD adf, 1, 4), none⟩ ∧
    autoSarimaParamsFast (fun _ _ => none) adfF =
      ⟨(1, chooseD adfF, 1), (0, 0, 1, 4), none⟩ := by
  refine ⟨?_, ?_, ?_, ?_⟩
  · unfold autoSarimaParams
    refine dTotal_foldl_selectStep _ _ _ ?_ (mem_fullGrid _)
    have := chooseD_le_one adf
    simp only [dTotal]
    omega
  · unfold autoSarimaParamsFast
    refine dTotal_foldl_selectStep _ _ _ ?_ (mem_fastGrid _ (chooseD_le_one adfF))
    have := chooseD_le_one adfF
    simp only [dTotal]
    omega
  · unfold autoSarimaParams
    exact foldl_selectStep_none _ _
  · unfold autoSarimaParamsFast
    exact foldl_selectStep_none _ _

-- ── Lemmas: pipeline structure ──────────────────────────────────────────────

/-- A successful pipeline run has at least 16 weeks and is the result record
assembled from a successful final fit on the full series. -/
lemma runSarima_ok (env : StatsEnv) (s : List (ℤ × ℚ)) (periods : ℤ)
    (cu : Option ℚ) (r : SarimaResult)
    (h : runSarima env s periods cu = .ok r) :
    ¬ s.length < 16 ∧
      ∃ ff, env.fit (s.map Prod.snd) (wfParamsOf env s).order
          (wfParamsOf env s).seasonal = some ff ∧
        r = assembleResult env s periods cu ff := by
  unfold runSarima at h
  split at h
  · exact absurd h (by simp)
  next hlen =>
    cases hE : env.fit (s.map Prod.snd) (wfParamsOf env s).order
        (wfParamsOf env s).seasonal with
    | none =>
      simp only [hE] at h
      exact absurd h (by simp)
    | some ff =>
      simp only [hE, PipeOut.ok.injEq] at h
      exact ⟨hlen, ff, rfl, h.symm⟩

-- ── Claim C9 ────────────────────────────────────────────────────────────────

/-- C9: with fewer than 16 usable weeks the pipeline returns the structured
error naming the actual week count, the outcome is independent of the
statistical oracle and of the horizon (no model fitting is attempted), and
the message decomposes around the week count. -/
theorem C9_insufficient_history (env env2 : StatsEnv) (s : List (ℤ × ℚ))
    (periods periods2 : ℤ) (cu cu2 : Option ℚ) (h : s.length < 16) :
    runSarima env s periods cu =
      PipeOut.errorResult ("Only " ++ toString s.length ++
        " weeks of data available (need ≥16). Load more history and retry.") ∧
    runSarima env s periods cu = runSarima env2 s periods2 cu2 ∧
    ∃ a b, ("Only " ++ toString s.length ++
        " weeks of data available (need ≥16). Load more history and retry.") =
      a ++ toString s.length ++ b := by
  unfold runSarima
  simp only [if_pos h]
  exact ⟨trivial, trivial, "Only ",
    " weeks of data available (need ≥16). Load more history and retry.", rfl⟩

/-- Witness for C9 at a 3-week series. -/
theorem C9_insufficient_history_witness :
    s3short.length < 16 ∧
    runSarima envGood s3short 30 none =
      PipeOut.errorResult ("Only " ++ toString s3short.length ++
        " weeks of data available (need ≥16). Load more history and retry.") :=
  ⟨by decide,
   (C9_insufficient_history envGood envGood s3short 30 30 none none
     (by decide)).1⟩

-- ── Claim C8 ────────────────────────────────────────────────────────────────

/-- C8: a successful pipeline run forecasts `max(1, round(periods / 7))`
weeks ahead and its forecast table has exactly that many rows; a 30-day
horizon yields 4 weeks and a 90-day horizon yields 13 weeks. -/
theorem C8_weeks_ahead (env : StatsEnv) (s : List (ℤ × ℚ)) (periods : ℤ)
    (cu : Option ℚ) (r : SarimaResult)
    (h : runSarima env s periods cu = .ok r) :
    r.weeksAhead = max 1 (round ((periods : ℚ) / 7)) ∧
    r.forecastDf.length = (max 1 (round ((periods : ℚ) / 7))).toNat ∧
    weeksAheadOf 30 = 4 ∧ weeksAheadOf 90 = 13 := by
  obtain ⟨-, ff, -, rfl⟩ := runSarima_ok _ _ _ _ _ h
  refine ⟨rfl, ?_, ?_, ?_⟩
  · simp [assembleResult, finalRows, weeksAheadOf]
  · with_unfolding_all decide
  · with_unfolding_all decide

/-- Witness for C8 at a successful 16-week run with a 30-day horizon. -/
theorem C8_weeks_ahead_witness :
    ∃ r, runSarima envGood s16good 30 none = PipeOut.ok r ∧
      r.weeksAhead = max 1 (round ((30 : ℚ) / 7)) ∧
      r.forecastDf.length = (max 1 (round ((30 : ℚ) / 7))).toNat := by
  have hok : pipeIsOk (runSarima envGood s16good 30 none) = true := by
    with_unfolding_all decide
  cases hE : runSarima envGood s16good 30 none with
  | ok r =>
    exact ⟨r, rfl, (C8_weeks_ahead envGood s16good 30 none r hE).1,
      (C8_weeks_ahead envGood s16good 30 none r hE).2.1⟩
  | errorResult m => rw [hE] at hok; simp [pipeIsOk] at hok
  | raised => rw [hE] at hok; simp [pipeIsOk] at hok

-- ── Claim C1 ────────────────────────────────────────────────────────────────

/-- C1 (code bug, evaluated at a failing input): on a 16-week series whose
walk-forward validation fit raises, the pipeline succeeds and returns the
in-sample MAPE of the final model (here 100, since the fitted values are 0
against unit actuals) — yet the returned provenance label is still
"walk-forward".  The label is never changed. -/
theorem C1_insample_mape_keeps_walkforward_label :
    (wfFitOf envWfFail s16good).isSome = false ∧
    pipeIsOk (runSarima envWfFail s16good 30 none) = true ∧
    pipeMape (runSarima envWfFail s16good 30 none) =
      some (mapeCalc (s16good.map Prod.snd)
        ((List.range 16).map frZeroFit.fittedValues)) ∧
    pipeMape (runSarima envWfFail s16good 30 none) = some 100 ∧
    pipeMapeLabel (runSarima envWfFail s16good 30 none) =
      some "walk-forward" := by
  with_unfolding_all decide

-- ── Claim C2 ────────────────────────────────────────────────────────────────

/-- Counterexample to C2 as stated: a successful run on which the order
search, were it re-run on the entire series, would select a different
`ModelOrder` than the one the result actually carries — the pipeline
reuses the training-prefix selection instead of re-selecting. -/
theorem C2_counterexample :
    pipeIsOk (runSarima envSplitGrid s16good 30 none) = true ∧
    pipeParams (runSarima envSplitGrid s16good 30 none) ≠
      some (autoSarimaParams (envSplitGrid.gridFit (s16good.map Prod.snd))
        (envSplitGrid.adfP (s16good.map Prod.snd))) := by
  with_unfolding_all decide

/-- C2 (amended): in every successful run the result carries the model order
selected on the training prefix (not re-selected on the full series), the
final model is fit on the entire series and its forecast is the one
returned, and the validation model is discarded — an oracle agreeing on
the grid search, the unit-root test, the full-series fit and the standard
deviation (but arbitrary elsewhere, in particular on the validation fit)
yields the same parameters, forecast table and trend; only the accuracy
number may differ. -/
theorem C2_final_fit_on_full_series (env env2 : StatsEnv)
    (s : List (ℤ × ℚ)) (periods : ℤ) (cu : Option ℚ) (r : SarimaResult)
    (h : runSarima env s periods cu = .ok r)
    (hg : env2.gridFit = env.gridFit) (ha : env2.adfP = env.adfP)
    (hf : env2.fit (s.map Prod.snd) = env.fit (s.map Prod.snd))
    (hq : env2.sqrtQ = env.sqrtQ) :
    r.params = autoSarimaParams (env.gridFit (trainVals (s.map Prod.snd)))
      (env.adfP (trainVals (s.map Prod.snd))) ∧
    (∃ ff, env.fit (s.map Prod.snd) r.params.order r.params.seasonal =
        some ff ∧
      r.forecastDf = finalRows ff (weeksAheadOf periods).toNat cu) ∧
    (∃ r2, runSarima env2 s periods cu = .ok r2 ∧ r2.params = r.params ∧
      r2.forecastDf = r.forecastDf ∧ r2.trend = r.trend ∧
      r2.weeksAhead = r.weeksAhead) := by
  obtain ⟨hlen, ff, hE, rfl⟩ := runSarima_ok _ _ _ _ _ h
  have hwf : wfParamsOf env2 s = wfParamsOf env s := by
    unfold wfParamsOf
    rw [hg, ha]
  have hE2 : env2.fit (s.map Prod.snd) (wfParamsOf env2 s).order
      (wfParamsOf env2 s).seasonal = some ff := by
    rw [hwf, hf]
    exact hE
  refine ⟨rfl, ⟨ff, hE, rfl⟩, assembleResult env2 s periods cu ff, ?_, ?_, rfl, ?_, rfl⟩
  · unfold runSarima
    rw [if_neg hlen]
    simp only [hE2]
  · show wfParamsOf env2 s = wfParamsOf env s
    exact hwf
  · show trendOf (qMean (s.map Prod.snd)) (env2.sqrtQ (sampleVar (s.map Prod.snd))) _ =
      trendOf (qMean (s.map Prod.snd)) (env.sqrtQ (sampleVar (s.map Prod.snd))) _
    rw [hq]

/-- Witness for C2 (amended) at a successful concrete run. -/
theorem C2_final_fit_on_full_series_witness :
    ∃ r, runSarima envGood s16good 30 none = PipeOut.ok r ∧
      r.params = autoSarimaParams
        (envGood.gridFit (trainVals (s16good.map Prod.snd)))
        (envGood.adfP (trainVals (s16good.map Prod.snd))) := by
  have hok : pipeIsOk (runSarima envGood s16good 30 none) = true := by
    with_unfolding_all decide
  cases hE : runSarima envGood s16good 30 none with
  | ok r =>
    exact ⟨r, rfl,
      (C2_final_fit_on_full_series envGood envGood s16good 30 none r hE
        rfl rfl rfl rfl).1⟩
  | errorResult m => rw [hE] at hok; simp [pipeIsOk] at hok
  | raised => rw [hE] at hok; simp [pipeIsOk] at hok

-- ── Lemmas: clipping and forecast rows (claim C10) ──────────────────────────

lemma clipQ_mono (cu : Option ℚ) {x y : ℚ} (h : x ≤ y) :
    clipQ cu x ≤ clipQ cu y := by
  cases cu with
  | none => exact max_le_max le_rfl h
  | some u => exact min_le_min le_rfl (max_le_max le_rfl h)

lemma clipQ_nonneg (u : ℚ) (hu : 0 ≤ u) (x : ℚ) : 0 ≤ clipQ (some u) x :=
  le_min hu (le_max_left _ _)

lemma clipQ_le_upper (u x : ℚ) : clipQ (some u) x ≤ u := min_le_left _ _

lemma finalRows_ordered (ff : FitResult) (steps : Nat) (cu : Option ℚ)
    (hff : ∀ i, ff.confLower i ≤ ff.predictedMean i ∧
      ff.predictedMean i ≤ ff.confUpper i) :
    ∀ t ∈ finalRows ff steps cu, t.lower ≤ t.forecast ∧ t.forecast ≤ t.upper := by
  intro t ht
  simp only [finalRows, List.mem_map, List.mem_range] at ht
  obtain ⟨i, -, rfl⟩ := ht
  exact ⟨clipQ_mono cu (hff i).1, clipQ_mono cu (hff i).2⟩

lemma finalRows_clipped (ff : FitResult) (steps : Nat) (u : ℚ) (hu : 0 ≤ u) :
    ∀ t ∈ finalRows ff steps (some u), 0 ≤ t.lower ∧ t.upper ≤ u := by
  intro t ht
  simp only [finalRows, List.mem_map, List.mem_range] at ht
  obtain ⟨i, -, rfl⟩ := ht
  exact ⟨clipQ_nonneg u hu _, clipQ_le_upper u _⟩

/-- A stored category record comes from a ≥16-week series and a successful
fast fit on the full series. -/
lemma catPipe_some (env : StatsEnv) (periods : ℤ) (c : String)
    (s : List (ℤ × ℚ)) (cr : CatResult)
    (h : (catPipe env periods c (some s)).1 = some cr) :
    ¬ s.length < 16 ∧
      ∃ ff, env.fitFast (s.map Prod.snd) (fastParamsOf env s).order
          (fastParamsOf env s).seasonal = some ff ∧
        cr = assembleCat env s periods ff := by
  simp only [catPipe] at h
  split at h
  · simp at h
  next hlen =>
    cases hE : env.fitFast (s.map Prod.snd) (fastParamsOf env s).order
        (fastParamsOf env s).seasonal with
    | none =>
      simp only [hE] at h
      exact absurd h (by simp)
    | some ff =>
      simp only [hE] at h
      exact ⟨hlen, ff, rfl, (Option.some.inj h).symm⟩

-- ── Claim C10 ───────────────────────────────────────────────────────────────

/-- C10: in every returned forecast — from the main pipeline and from the
per-category coordinator — each week satisfies lower ≤ forecast ≤ upper
(granted the library contract that a confidence interval contains its
predicted mean), and the ordering survives clipping; with an upper clip
`u ≥ 0` (100 for the delay-rate metric) every row stays inside [0, u]. -/
theorem C10_bounds_ordered (env : StatsEnv) (s : List (ℤ × ℚ)) (periods : ℤ)
    (cu : Option ℚ) (r : SarimaResult) (envc : StatsEnv) (c : String)
    (s2 : List (ℤ × ℚ)) (periods2 : ℤ) (cr : CatResult)
    (hfit : ∀ o so fr, env.fit (s.map Prod.snd) o so = some fr →
      ∀ i, fr.confLower i ≤ fr.predictedMean i ∧
        fr.predictedMean i ≤ fr.confUpper i)
    (h : runSarima env s periods cu = .ok r)
    (hfitc : ∀ o so fr, envc.fitFast (s2.map Prod.snd) o so = some fr →
      ∀ i, fr.confLower i ≤ fr.predictedMean i ∧
        fr.predictedMean i ≤ fr.confUpper i)
    (hc : (catPipe envc periods2 c (some s2)).1 = some cr) :
    (∀ t ∈ r.forecastDf, t.lower ≤ t.forecast ∧ t.forecast ≤ t.upper) ∧
    (∀ u, cu = some u → 0 ≤ u →
      ∀ t ∈ r.forecastDf, 0 ≤ t.lower ∧ t.upper ≤ u) ∧
    (∀ t ∈ cr.forecastDf, t.lower ≤ t.forecast ∧ t.forecast ≤ t.upper) := by
  obtain ⟨-, ff, hE, rfl⟩ := runSarima_ok _ _ _ _ _ h
  obtain ⟨-, ffc, hEc, rfl⟩ := catPipe_some _ _ _ _ _ hc
  refine ⟨finalRows_ordered _ _ _ (hfit _ _ _ hE), ?_,
    finalRows_ordered _ _ _ (hfitc _ _ _ hEc)⟩
  intro u hu hu0
  subst hu
  exact finalRows_clipped _ _ _ hu0

/-- Witness for C10 at a successful run (main pipeline with upper clip 100,
and one coordinator category). -/
theorem C10_bounds_ordered_witness :
    ∃ r cr, runSarima envGood s16good 30 (some 100) = PipeOut.ok r ∧
      (catPipe envGood 30 "a" (some s16good)).1 = some cr ∧
      (∀ t ∈ r.forecastDf, t.lower ≤ t.forecast ∧ t.forecast ≤ t.upper) ∧
      (∀ t ∈ r.forecastDf, 0 ≤ t.lower ∧ t.upper ≤ 100) ∧
      (∀ t ∈ cr.forecastDf, t.lower ≤ t.forecast ∧ t.forecast ≤ t.upper) := by
  have hfit : ∀ o so fr, envGood.fit (s16good.map Prod.snd) o so = some fr →
      ∀ i, fr.confLower i ≤ fr.predictedMean i ∧
        fr.predictedMean i ≤ fr.confUpper i := by
    intro o so fr hfr i
    cases Option.some.inj hfr
    constructor <;> norm_num [frGood]
  have hok : pipeIsOk (runSarima envGood s16good 30 (some 100)) = true := by
    with_unfolding_all decide
  have hcs : ((catPipe envGood 30 "a" (some s16good)).1).isSome = true := by
    with_unfolding_all decide
  cases hE : runSarima envGood s16good 30 (some 100) with
  | errorResult m => rw [hE] at hok; simp [pipeIsOk] at hok
  | raised => rw [hE] at hok; simp [pipeIsOk] at hok
  | ok r =>
    cases hC : (catPipe envGood 30 "a" (some s16good)).1 with
    | none => rw [hC] at hcs; simp at hcs
    | some cr =>
      have main := C10_bounds_ordered envGood s16good 30 (some 100) r
        envGood "a" s16good 30 cr hfit hE hfit hC
      exact ⟨r, cr, rfl, rfl, main.1,
        fun t ht => main.2.1 100 rfl (by norm_num) t ht, main.2.2⟩

-- ── Lemmas: MAPE (claim C7) ─────────────────────────────────────────────────

lemma mapeCalc_all_zero (a p : List ℚ) (hz : ∀ x ∈ a, x = 0) :
    mapeCalc a p = 0 := by
  have hnil : (a.zip p).filter (fun ap => decide (0 < ap.1)) = [] := by
    refine List.filter_eq_nil_iff.mpr fun ap hap => ?_
    have h1 : ap.1 ∈ a := (List.of_mem_zip hap).1
    simp [hz ap.1 h1]
  simp [mapeCalc, hnil]

lemma zipFilter_congr (a p p2 : List ℚ) (hl : p.length = a.length)
    (hl2 : p2.length = a.length)
    (hag : ∀ i, i < a.length → 0 < a.getD i 0 → p.getD i 0 = p2.getD i 0) :
    (a.zip p).filter (fun ap => decide (0 < ap.1)) =
      (a.zip p2).filter (fun ap => decide (0 < ap.1)) := by
  induction a generalizing p p2 with
  | nil => simp
  | cons x t ih =>
    cases p with
    | nil => simp at hl
    | cons y u =>
      cases p2 with
      | nil => simp at hl2
      | cons y2 u2 =>
        have ht := ih u u2 (by simpa using hl) (by simpa using hl2)
          fun i hi hp => by
            simpa using hag (i + 1) (by simpa using hi) (by simpa using hp)
        by_cases hx : 0 < x
        · have hy : y = y2 := by simpa using hag 0 (by simp) (by simpa using hx)
          simp [List.filter_cons, hx, hy, ht]
        · simp [List.filter_cons, hx, ht]

lemma mapeCalc_nonzero_only (a p p2 : List ℚ) (hl : p.length = a.length)
    (hl2 : p2.length = a.length)
    (hag : ∀ i, i < a.length → 0 < a.getD i 0 → p.getD i 0 = p2.getD i 0) :
    mapeCalc a p = mapeCalc a p2 := by
  unfold mapeCalc
  rw [zipFilter_congr a p p2 hl hl2 hag]

-- ── Claim C7 ────────────────────────────────────────────────────────────────

/-- Counterexample to C7 as stated: a category whose holdout actuals are all
zero and whose fits succeed, yet the coordinator stores `mape = None`
(reported "N/A") instead of the claimed 0 — the all-zero fallback to 0
exists only in the main pipeline. -/
theorem C7_counterexample :
    (∀ x ∈ holdoutVals s16zeroTail, x = 0) ∧
    (cwfFitOf envGood s16zeroTail).isSome = true ∧
    coordMapeOf (runTopCats envGood [("a", some s16zeroTail)] 30).1 "a" =
      some none := by
  with_unfolding_all decide

/-- C7 (amended): MAPE is computed only over holdout weeks with nonzero
actual value — predictions at zero-actual weeks never influence it — and an
all-zero holdout yields MAPE 0 with no division error; this is so for the
main pipeline, while the multi-series coordinator, whose MAPE computation
is guarded by the same nonzero filter, leaves the accuracy unset (`none`)
on an all-zero holdout instead of reporting 0. -/
theorem C7_mape_nonzero_actuals (a1 p1 a2 p2 p3 : List ℚ) (env : StatsEnv)
    (s : List (ℤ × ℚ)) (periods : ℤ) (cu : Option ℚ) (r : SarimaResult)
    (envc : StatsEnv) (c : String) (s2 : List (ℤ × ℚ)) (periods2 : ℤ)
    (cr : CatResult)
    (hz1 : ∀ x ∈ a1, x = 0)
    (hl : p2.length = a2.length) (hl2 : p3.length = a2.length)
    (hag : ∀ i, i < a2.length → 0 < a2.getD i 0 → p2.getD i 0 = p3.getD i 0)
    (hr : runSarima env s periods cu = .ok r)
    (hwf : (wfFitOf env s).isSome = true)
    (hz2 : ∀ x ∈ holdoutVals s, x = 0)
    (hc : (catPipe envc periods2 c (some s2)).1 = some cr)
    (hz3 : ∀ x ∈ holdoutVals s2, x = 0) :
    mapeCalc a1 p1 = 0 ∧
    mapeCalc a2 p2 = mapeCalc a2 p3 ∧
    r.mape = 0 ∧
    cr.mape = none := by
  obtain ⟨-, ff, -, rfl⟩ := runSarima_ok _ _ _ _ _ hr
  obtain ⟨-, ffc, -, rfl⟩ := catPipe_some _ _ _ _ _ hc
  refine ⟨mapeCalc_all_zero _ _ hz1, mapeCalc_nonzero_only _ _ _ hl hl2 hag,
    ?_, ?_⟩
  · show pipeMapeVal env s ff = 0
    unfold pipeMapeVal
    cases hW : wfFitOf env s with
    | none => rw [hW] at hwf; simp at hwf
    | some fv =>
      simp only [hW]
      exact mapeCalc_all_zero _ _ hz2
  · show catMapeVal envc s2 = none
    unfold catMapeVal
    cases hW : cwfFitOf envc s2 with
    | none => simp [hW]
    | some fv =>
      have hnil : ((testVals (s2.map Prod.snd)).filter
          fun a => decide (0 < a)) = [] := by
        refine List.filter_eq_nil_iff.mpr fun x hx => ?_
        simp [hz3 x hx]
      simp [hW, hnil]

/-- Witness for C7 (amended) at concrete inputs: an all-zero pair of lists, a
pair of predictions agreeing at the nonzero actuals, and a 16-week series
with an all-zero 4-week holdout run through both the pipeline and the
coordinator. -/
theorem C7_mape_nonzero_actuals_witness :
    ∃ r cr, runSarima envGood s16zeroTail 30 none = PipeOut.ok r ∧
      (catPipe envGood 30 "a" (some s16zeroTail)).1 = some cr ∧
      mapeCalc [0, 0] [5, 7] = 0 ∧
      mapeCalc [1, 0, 2] [1, 9, 2] = mapeCalc [1, 0, 2] [1, 4, 2] ∧
      r.mape = 0 ∧ cr.mape = none := by
  have hok : pipeIsOk (runSarima envGood s16zeroTail 30 none) = true := by
    with_unfolding_all decide
  have hcs : ((catPipe envGood 30 "a" (some s16zeroTail)).1).isSome = true := by
    with_unfolding_all decide
  cases hE : runSarima envGood s16zeroTail 30 none with
  | errorResult m => rw [hE] at hok; simp [pipeIsOk] at hok
  | raised => rw [hE] at hok; simp [pipeIsOk] at hok
  | ok r =>
    cases hC : (catPipe envGood 30 "a" (some s16zeroTail)).1 with
    | none => rw [hC] at hcs; simp at hcs
    | some cr =>
      have main := C7_mape_nonzero_actuals [0, 0] [5, 7] [1, 0, 2] [1, 9, 2]
        [1, 4, 2] envGood s16zeroTail 30 none r envGood "a" s16zeroTail 30 cr
        (by decide) (by decide) (by decide)
        (by decide)
        hE (by with_unfolding_all decide) (by with_unfolding_all decide)
        hC (by with_unfolding_all decide)
      exact ⟨r, cr, rfl, rfl, main.1, main.2.1, main.2.2.1, main.2.2.2⟩

-- ── Lemmas: coordinator loop (claim C3) ─────────────────────────────────────

/-- The error string of a coordinator outcome, when there is one. -/
def coordErr (o : Except String (List (String × CatResult))) : Option String :=
  match o with
  | .error m => some m
  | .ok _ => none

lemma runTopCats_log (env : StatsEnv)
    (cats : List (String × Option (List (ℤ × ℚ)))) (periods : ℤ) :
    (runTopCats env cats periods).2 =
      cats.flatMap fun cp => (catPipe env periods cp.1 cp.2).2 := by
  unfold runTopCats
  split <;> rfl


lemma filterMap_pair_fst (g : String × Option (List (ℤ × ℚ)) → Option CatResult)
    (cats : List (String × Option (List (ℤ × ℚ)))) :
    ((cats.filterMap fun cp => (g cp).map fun r => (cp.1, r)).map Prod.fst) =
      (cats.filter fun cp => (g cp).isSome).map Prod.fst := by
  induction cats with
  | nil => rfl
  | cons cp t ih =>
    cases hg : g cp with
    | none => simpa [List.filterMap_cons, List.filter_cons, hg] using ih
    | some r => simpa [List.filterMap_cons, List.filter_cons, hg] using ih

/-- A skipped category always leaves a log line naming it: the failure
message, or the skip message carrying its week count. -/
lemma catPipe_none_log (env : StatsEnv) (periods : ℤ) (c : String)
    (prep : Option (List (ℤ × ℚ)))
    (h : (catPipe env periods c prep).1 = none) :
    ∃ m ∈ (catPipe env periods c prep).2,
      m = failMsg c ∨ ∃ n, m = skipMsg c n := by
  match prep with
  | none => exact ⟨failMsg c, by simp [catPipe], Or.inl rfl⟩
  | some s =>
    by_cases hlen : s.length < 16
    · exact ⟨skipMsg c s.length, by simp [catPipe, hlen],
        Or.inr ⟨s.length, rfl⟩⟩
    · cases hE : env.fitFast (s.map Prod.snd) (fastParamsOf env s).order
          (fastParamsOf env s).seasonal with
      | none =>
        refine ⟨failMsg c, ?_, Or.inl rfl⟩
        simp [catPipe, hlen, hE]
      | some ff =>
        rw [show (catPipe env periods c (some s)).1 =
            some (assembleCat env s periods ff) by
          simp [catPipe, hlen, hE]] at h
        exact absurd h (by simp)

-- ── Claim C3 ────────────────────────────────────────────────────────────────

/-- Counterexample to C3 as stated: one category with 16 weeks of history,
but every model fit raises — the loop skips it and, with no successful
category left, `forecast_top_categories` returns the error dictionary
rather than a successful result. -/
theorem C3_counterexample :
    16 ≤ s16good.length ∧
    coordErr (runTopCats envAllFail [("a", some s16good)] 30).1 =
      some "Could not generate forecasts for any category" := by
  with_unfolding_all decide

/-- C3 (amended): whenever at least one category completes the per-category
pipeline (so it has ≥ 16 weeks of history and its fits succeed), the
coordinator returns a successful result; it contains exactly the
categories that succeeded, in order — one category failing does not abort
the others — and every skipped category is reported in the warning log
(not in the returned result) by a message naming it and the reason. -/
theorem C3_partial_results (env : StatsEnv)
    (cats : List (String × Option (List (ℤ × ℚ)))) (periods : ℤ)
    (h : ∃ cp ∈ cats, ((catPipe env periods cp.1 cp.2).1).isSome = true) :
    coordIsOk (runTopCats env cats periods).1 = true ∧
    coordCats (runTopCats env cats periods).1 =
      (cats.filter fun cp =>
        ((catPipe env periods cp.1 cp.2).1).isSome).map Prod.fst ∧
    (∀ cp ∈ cats, (catPipe env periods cp.1 cp.2).1 = none →
      ∃ m ∈ (runTopCats env cats periods).2,
        m = failMsg cp.1 ∨ ∃ n, m = skipMsg cp.1 n) := by
  obtain ⟨cp0, hmem, hsome⟩ := h
  obtain ⟨r0, hr0⟩ := Option.isSome_iff_exists.mp hsome
  have hne : topCatResults env cats periods ≠ [] := by
    intro hnil
    have hm : (cp0.1, r0) ∈ topCatResults env cats periods := by
      unfold topCatResults
      exact List.mem_filterMap.mpr ⟨cp0, hmem, by rw [hr0]; rfl⟩
    rw [hnil] at hm
    exact absurd hm (List.not_mem_nil _)
  have hemp : (topCatResults env cats periods).isEmpty = false := by
    simpa [List.isEmpty_iff] using hne
  refine ⟨?_, ?_, ?_⟩
  · unfold runTopCats
    simp only [hemp, Bool.false_eq_true, if_false, coordIsOk]
  · unfold runTopCats
    simp only [hemp, Bool.false_eq_true, if_false, coordCats]
    unfold topCatResults
    exact filterMap_pair_fst _ cats
  · intro cp hcp hnone
    obtain ⟨m, hml, hform⟩ := catPipe_none_log env periods cp.1 cp.2 hnone
    refine ⟨m, ?_, hform⟩
    rw [runTopCats_log]
    exact List.mem_flatMap.mpr ⟨cp, hcp, hml⟩

/-- Witness for C3 (amended): three requested categories — one viable, one
with only 3 weeks, one whose preparation raises — yield a successful
result containing exactly the viable one. -/
theorem C3_partial_results_witness :
    coordIsOk (runTopCats envGood
      [("a", some s16good), ("b", some s3short), ("c", none)] 30).1 = true ∧
    coordCats (runTopCats envGood
      [("a", some s16good), ("b", some s3short), ("c", none)] 30).1 = ["a"] := by
  have h := C3_partial_results envGood
    [("a", some s16good), ("b", some s3short), ("c", none)] 30
    ⟨("a", some s16good), by simp, by with_unfolding_all decide⟩
  exact ⟨h.1, h.2.1.trans (by with_unfolding_all decide)⟩

-- ── Lemmas: weekly spacing (claim C5) ───────────────────────────────────────

lemma chain7_fullRange (n : Nat) : ∀ lo : ℤ,
    List.Chain' (fun a b => b = a + 7) (fullRange lo n) := by
  induction n with
  | zero => intro lo; simp [fullRange]
  | succ m ih =>
    intro lo
    refine List.chain'_cons'.mpr ⟨?_, ih (lo + 7)⟩
    intro y hy
    cases m with
    | zero => simp [fullRange] at hy
    | succ k =>
      simp only [fullRange, List.head?_cons, Option.mem_def,
        Option.some.injEq] at hy
      omega

lemma spaced7_map_pair (lo : ℤ) (n : Nat) (f : ℤ → ℚ) :
    Spaced7 ((fullRange lo n).map fun w => (w, f w)) := by
  unfold Spaced7
  rw [List.chain'_map]
  exact chain7_fullRange n lo

lemma filter_ge_of_head (c : ℤ) : ∀ (l : List (ℤ × ℚ)), Spaced7 l →
    (∀ hd ∈ l.head?, c ≤ hd.1) →
    l.filter (fun p => decide (c ≤ p.1)) = l := by
  intro l
  induction l with
  | nil => intro _ _; rfl
  | cons x t ih =>
    intro h hhd
    have hx : c ≤ x.1 := hhd x rfl
    obtain ⟨hh, ht⟩ := List.chain'_cons'.mp h
    have htf : t.filter (fun p => decide (c ≤ p.1)) = t := by
      refine ih ht fun hd hmem => ?_
      have h7 : hd.1 = x.1 + 7 := hh hd hmem
      omega
    simp [List.filter_cons, hx, htf]

lemma spaced7_filter_ge (c : ℤ) : ∀ (l : List (ℤ × ℚ)), Spaced7 l →
    Spaced7 (l.filter fun p => decide (c ≤ p.1)) := by
  intro l
  induction l with
  | nil => intro _; simp [Spaced7]
  | cons x t ih =>
    intro h
    obtain ⟨hh, ht⟩ := List.chain'_cons'.mp h
    by_cases hx : c ≤ x.1
    · rw [filter_ge_of_head c (x :: t) h fun hd hmem => by
        simp only [List.head?_cons, Option.mem_def, Option.some.injEq] at hmem
        subst hmem
        exact hx]
      exact h
    · simpa [List.filter_cons, hx] using ih ht

lemma spaced7_zip : ∀ (l : List ℤ) (v : List ℚ),
    List.Chain' (fun a b => b = a + 7) l → Spaced7 (l.zip v) := by
  intro l
  induction l with
  | nil => intro v _; simp [Spaced7]
  | cons x t ih =>
    intro v h
    cases v with
    | nil => simp [Spaced7]
    | cons a u =>
      obtain ⟨hh, ht⟩ := List.chain'_cons'.mp h
      refine List.chain'_cons'.mpr ⟨?_, ih u ht⟩
      intro y hy
      cases t with
      | nil => simp at hy
      | cons z t2 =>
        cases u with
        | nil => simp at hy
        | cons b u2 =>
          simp only [List.zip_cons_cons, List.zipWith_cons_cons,
            List.head?_cons, Option.mem_def, Option.some.injEq] at hy
          subst hy
          exact hh z rfl

lemma spaced7_tailTrimPairs (l : List (ℤ × ℚ)) (h : Spaced7 l) :
    Spaced7 (tailTrimPairs l) :=
  List.Chain'.take h _

-- ── Claim C5 ────────────────────────────────────────────────────────────────

/-- C5: every weekly series produced by the four builders — demand counts,
revenue sums, delay rate, per-category counts — has consecutive index
dates exactly 7 days apart (no gaps, no duplicates); the invariant is
established by the 7-day reindexing and preserved by the history cutoff,
by interpolation, and by tail-trim. -/
theorem C5_weekly_spacing (ev : List ℤ) (rev : List (ℤ × ℚ))
    (rows : List (ℤ × Bool)) (evc : List (ℤ × String)) (cat : String)
    (c1 c2 c3 c4 : ℤ)
    (_h1 : ev ≠ []) (_h2 : rev ≠ []) (_h3 : keptWeeks rows ≠ [])
    (_h4 : (evc.filter fun e => decide (e.2 = cat)) ≠ []) :
    Spaced7 (prepareCountSeries ev c1) ∧
    Spaced7 (prepareSumSeries rev c2) ∧
    Spaced7 (prepareDelaySeries rows c3) ∧
    Spaced7 (prepareCategorySeries evc cat c4) := by
  refine ⟨?_, ?_, ?_, ?_⟩
  · exact spaced7_tailTrimPairs _ (spaced7_filter_ge _ _ (spaced7_map_pair _ _ _))
  · exact spaced7_tailTrimPairs _ (spaced7_filter_ge _ _ (spaced7_map_pair _ _ _))
  · exact spaced7_filter_ge _ _ (spaced7_zip _ _ (chain7_fullRange _ _))
  · exact spaced7_tailTrimPairs _ (spaced7_filter_ge _ _ (spaced7_map_pair _ _ _))

/-- Witness for C5 at small nonempty inputs (one demand event, one payment,
one 5-delivery week, one categorised event). -/
theorem C5_weekly_spacing_witness :
    ([(0 : ℤ)] ≠ [] ∧ [((0 : ℤ), (5 : ℚ))] ≠ [] ∧
      keptWeeks (List.replicate 5 ((0 : ℤ), true)) ≠ [] ∧
      ([(((0 : ℤ), "x"))].filter fun e => decide (e.2 = "x")) ≠ []) ∧
    (Spaced7 (prepareCountSeries [(0 : ℤ)] (-10)) ∧
      Spaced7 (prepareSumSeries [((0 : ℤ), (5 : ℚ))] (-10)) ∧
      Spaced7 (prepareDelaySeries (List.replicate 5 ((0 : ℤ), true)) (-10)) ∧
      Spaced7 (prepareCategorySeries [(((0 : ℤ), "x"))] "x" (-10))) := by
  have hk : keptWeeks (List.replicate 5 ((0 : ℤ), true)) ≠ [] := by
    with_unfolding_all decide
  have hc : ([(((0 : ℤ), "x"))].filter fun e => decide (e.2 = "x")) ≠ [] := by
    with_unfolding_all decide
  exact ⟨⟨by simp, by simp, hk, hc⟩,
    C5_weekly_spacing [(0 : ℤ)] [((0 : ℤ), (5 : ℚ))]
      (List.replicate 5 ((0 : ℤ), true)) [(((0 : ℤ), "x"))] "x"
      (-10) (-10) (-10) (-10) (by simp) (by simp) hk hc⟩

-- ── Lemmas: tail-trim (claim C6) ────────────────────────────────────────────

lemma mem_insSorted (a x : ℚ) : ∀ l : List ℚ, x ∈ insSorted a l → x = a ∨ x ∈ l := by
  intro l
  induction l with
  | nil => intro h; simpa [insSorted] using h
  | cons b t ih =>
    intro h
    unfold insSorted at h
    split at h
    · simpa using h
    · rcases List.mem_cons.mp h with hb | ht
      · exact Or.inr (List.mem_cons.mpr (Or.inl hb))
      · rcases ih ht with ha | ht2
        · exact Or.inl ha
        · exact Or.inr (List.mem_cons.mpr (Or.inr ht2))

lemma mem_sortQ (x : ℚ) : ∀ l : List ℚ, x ∈ sortQ l → x ∈ l := by
  intro l
  induction l with
  | nil => intro h; simp [sortQ] at h
  | cons a t ih =>
    intro h
    rcases mem_insSorted a x (sortQ t) h with ha | ht
    · exact List.mem_cons.mpr (Or.inl ha)
    · exact List.mem_cons.mpr (Or.inr (ih ht))

lemma getD_zero_nonneg (l : List ℚ) (i : Nat) (h : ∀ x ∈ l, 0 ≤ x) :
    0 ≤ l.getD i 0 := by
  by_cases hi : i < l.length
  · rw [List.getD_eq_getElem l 0 hi]
    exact h _ (List.getElem_mem hi)
  · rw [List.getD_eq_default l 0 (le_of_not_lt hi)]

lemma medianOf_nonneg (l : List ℚ) (h : ∀ x ∈ l, 0 ≤ x) : 0 ≤ medianOf l := by
  have hs : ∀ x ∈ sortQ l, 0 ≤ x := fun x hx => h x (mem_sortQ x l hx)
  unfold medianOf
  split
  · exact getD_zero_nonneg _ _ hs
  · have h1 := getD_zero_nonneg (sortQ l) ((sortQ l).length / 2 - 1) hs
    have h2 := getD_zero_nonneg (sortQ l) ((sortQ l).length / 2) hs
    positivity

lemma lastD_mem : ∀ l : List ℚ, l ≠ [] → lastD l ∈ l := by
  intro l hl
  cases l with
  | nil => exact absurd rfl hl
  | cons a t =>
    unfold lastD
    show List.getLastD (a :: t) 0 ∈ a :: t
    rw [List.getLastD_cons]
    exact List.getLastD_mem_cons t a

lemma refMedLast_isSome (s : List ℚ) (h : 3 ≤ s.length) :
    ∃ m, refMedLast s = some m := by
  unfold refMedLast
  have : ¬ s.dropLast.length < 2 := by
    rw [List.length_dropLast]
    omega
  rw [if_neg this]
  exact ⟨_, rfl⟩

lemma refMedLast_nonneg (s : List ℚ) (h : ∀ x ∈ s, 0 ≤ x) (m : ℚ)
    (hm : refMedLast s = some m) : 0 ≤ m := by
  unfold refMedLast at hm
  split at hm
  · simp at hm
  · have hmem : ∀ x ∈ s.dropLast.drop (s.dropLast.length - 4), 0 ≤ x :=
      fun x hx => h x ((List.dropLast_sublist s).subset
        ((List.drop_sublist _ _).subset hx))
    rw [← Option.some.inj hm]
    exact medianOf_nonneg _ hmem

lemma wouldDrop_below (s : List ℚ) (h : wouldDrop s = true) :
    isBelowThreshold s = true := by
  unfold wouldDrop at h
  unfold isBelowThreshold
  cases hM : refMedLast s with
  | none => rw [hM] at h; simp at h
  | some m =>
    rw [hM] at h
    simp only [Bool.and_eq_true, decide_eq_true_eq] at h
    exact decide_eq_true h.2.2

lemma tailTrimDrops_le : ∀ (n : Nat) (s : List ℚ), tailTrimDrops n s ≤ n := by
  intro n
  induction n with
  | zero => intro s; simp [tailTrimDrops]
  | succ m ih =>
    intro s
    unfold tailTrimDrops
    split
    · exact Nat.succ_le_succ (ih s.dropLast)
    · omega

lemma take_dropLast_take (s : List ℚ) (j : Nat) :
    s.dropLast.take (s.dropLast.length - j) = s.take (s.length - (j + 1)) := by
  rw [List.length_dropLast, List.dropLast_eq_take, List.take_take]
  congr 1
  omega

lemma tailTrimDrops_below : ∀ (n : Nat) (s : List ℚ) (i : Nat),
    i < tailTrimDrops n s →
    isBelowThreshold (s.take (s.length - i)) = true := by
  intro n
  induction n with
  | zero => intro s i hi; simp [tailTrimDrops] at hi
  | succ m ih =>
    intro s i hi
    by_cases hd : wouldDrop s = true
    · unfold tailTrimDrops at hi
      rw [if_pos hd] at hi
      cases i with
      | zero =>
        rw [Nat.sub_zero, List.take_length]
        exact wouldDrop_below s hd
      | succ j =>
        have hj : j < tailTrimDrops m s.dropLast := by omega
        have hres := ih s.dropLast j hj
        rwa [take_dropLast_take] at hres
    · unfold tailTrimDrops at hi
      rw [if_neg hd] at hi
      omega

lemma tailTrimDrops_stop : ∀ (n : Nat) (s : List ℚ),
    tailTrimDrops n s < n →
    wouldDrop (s.take (s.length - tailTrimDrops n s)) = false := by
  intro n
  induction n with
  | zero => intro s h; omega
  | succ m ih =>
    intro s hlt
    by_cases hd : wouldDrop s = true
    · unfold tailTrimDrops at hlt ⊢
      rw [if_pos hd] at hlt ⊢
      have hres := ih s.dropLast (by omega)
      rwa [take_dropLast_take] at hres
    · unfold tailTrimDrops
      rw [if_neg hd, Nat.sub_zero, List.take_length]
      exact Bool.eq_false_iff.mpr hd

-- ── Claim C6 ────────────────────────────────────────────────────────────────

/-- C6: on a nonnegative series (all builder series are), tail-trim removes
exactly some k ≤ min(4, ⌊len/8⌋) trailing points; each removed point was,
at its removal, strictly below 70% of the rolling median of the up-to-4
preceding weeks; and when the cap is not exhausted the trimming stopped at
a trailing point that is not below that threshold. -/
theorem C6_tail_trim (s : List ℚ) (hnn : ∀ x ∈ s, 0 ≤ x) :
    ∃ k, tailTrim s = s.take (s.length - k) ∧
      k ≤ min 4 (s.length / 8) ∧
      (∀ i < k, isBelowThreshold (s.take (s.length - i)) = true) ∧
      (k < min 4 (s.length / 8) →
        isBelowThreshold (s.take (s.length - k)) = false) := by
  refine ⟨tailTrimDrops (min 4 (s.length / 8)) s, rfl, tailTrimDrops_le _ _,
    fun i hi => tailTrimDrops_below _ s i hi, ?_⟩
  intro hk
  set k := tailTrimDrops (min 4 (s.length / 8)) s with hkdef
  have hstop := tailTrimDrops_stop _ s hk
  have hdiv : k + 1 ≤ s.length / 8 := le_trans hk (min_le_right _ _)
  have hmul : (k + 1) * 8 ≤ s.length := (Nat.le_div_iff_mul_le (by norm_num)).mp hdiv
  have hlen8 : 8 ≤ s.length - k := by omega
  have htlen : (s.take (s.length - k)).length = s.length - k := by
    rw [List.length_take]
    omega
  have hnt : ∀ x ∈ s.take (s.length - k), 0 ≤ x :=
    fun x hx => hnn x ((List.take_sublist _ _).subset hx)
  obtain ⟨m, hm⟩ := refMedLast_isSome (s.take (s.length - k)) (by omega)
  unfold wouldDrop at hstop
  rw [hm] at hstop
  have h8 : decide (8 ≤ (s.take (s.length - k)).length) = true := by
    rw [htlen]
    exact decide_eq_true hlen8
  rw [h8, Bool.true_and, decide_eq_false_iff_not] at hstop
  unfold isBelowThreshold
  rw [hm]
  refine decide_eq_false fun hb => ?_
  have hm0 : ¬ 0 < m := fun h0 => hstop ⟨h0, hb⟩
  have hmz : m = 0 :=
    le_antisymm (not_lt.mp hm0) (refMedLast_nonneg _ hnt m hm)
  rw [hmz, zero_mul] at hb
  have hlast : 0 ≤ lastD (s.take (s.length - k)) := by
    have hne : s.take (s.length - k) ≠ [] := by
      intro hnil
      rw [hnil] at htlen
      simp at htlen
      omega
    exact hnt _ (lastD_mem _ hne)
  linarith

/-- A nonnegative 8-week series ending in an anomalous low week. -/
def s8trim : List ℚ := [10, 10, 10, 10, 10, 10, 10, 1]

/-- Witness for C6 at `s8trim` (drop cap 1; the final 1 is below 70% of the
rolling median 10 and is removed). -/
theorem C6_tail_trim_witness :
    (∀ x ∈ s8trim, 0 ≤ x) ∧
    ∃ k, tailTrim s8trim = s8trim.take (s8trim.length - k) ∧
      k ≤ min 4 (s8trim.length / 8) ∧
      (∀ i < k, isBelowThreshold (s8trim.take (s8trim.length - i)) = true) ∧
      (k < min 4 (s8trim.length / 8) →
        isBelowThreshold (s8trim.take (s8trim.length - k)) = false) :=
  ⟨by with_unfolding_all decide,
   C6_tail_trim s8trim (by with_unfolding_all decide)⟩

end SCMForecast
